import Mathlib

/-!
Shallow embedding of the `limits-mongodb4` rate-limiting library:
the MongoDB storage backend (src/limits/storage/mongodb.py) and the
asynchronous strategies (src/limits/aio/strategies.py).

Modelling conventions:
* Wall-clock time is an integer number of seconds, passed explicitly as
  a `now : Int` argument wherever the Python code reads
  `time.time()` / `datetime.datetime.utcnow()` / MongoDB's `$$NOW`.
* The two MongoDB collections (`counters`, `windows`) are maps from the
  document `_id` (the rate-limit key) to the stored document.
* Every storage operation takes the state and returns its result paired
  with the resulting state.  Operations implemented with read-only
  MongoDB commands (`find_one`, `aggregate`) return the state unchanged,
  mirroring the fact that those commands issue no writes.
* `find_one_and_update` with an aggregation pipeline and `upsert=True`,
  and `update_one` with `upsert=True`, are modelled by the corresponding
  case analysis on whether a document with the `_id` exists and matches
  the filter; a failed upsert on an existing `_id` raises
  `DuplicateKeyError`, which `acquire_entry` catches and turns into
  `false` with the state untouched.
-/

namespace LimitsMongo

/-- Document stored in the `counters` collection: a fixed-window counter
with its garbage-collection timestamp `expireAt`. -/
structure CounterDoc where
  count : Nat
  expireAt : Int
  deriving DecidableEq, Repr

/-- Document stored in the `windows` collection: the list of acquired
entry timestamps (newest first, as `acquire_entry` pushes at position 0)
and the garbage-collection timestamp `expireAt`. -/
structure WindowDoc where
  entries : List Int
  expireAt : Int
  deriving DecidableEq, Repr

/-- The state of the MongoDB database used by the storage: the
`counters` and `windows` collections, keyed by document `_id`. -/
@[ext]
structure MongoState where
  counters : String → Option CounterDoc
  windows : String → Option WindowDoc

/-- The empty database: no counter and no window documents. -/
def MongoState.empty : MongoState :=
  { counters := fun _ => none, windows := fun _ => none }

/-- Replace (or create) the counter document stored under `key`. -/
def MongoState.setCounter (key : String) (d : CounterDoc) (s : MongoState) :
    MongoState :=
  { s with counters := fun k => if k = key then some d else s.counters k }

/-- Replace (or create) the window document stored under `key`. -/
def MongoState.setWindow (key : String) (d : WindowDoc) (s : MongoState) :
    MongoState :=
  { s with windows := fun k => if k = key then some d else s.windows k }

/-- Whether a stored entry timestamp lies inside the trailing window
`[now - expiry, now]`, exactly the `$gte` condition of the aggregation
filter in `get_moving_window`. -/
def inWindow (now expiry : Int) (e : Int) : Bool :=
  decide (now - expiry ≤ e)

namespace MongoDBStorage

/-- Embeds `MongoDBStorage.clear`: `find_one_and_delete` of `key` in
both collections. -/
def clear (key : String) (s : MongoState) : MongoState :=
  { counters := fun k => if k = key then none else s.counters k,
    windows := fun k => if k = key then none else s.windows k }

/-- Embeds `MongoDBStorage.get_expiry`: `find_one` of the counter for
`key`; the stored `expireAt` if the document exists, the current time
otherwise.  `find_one` is read-only, so the state is returned
unchanged. -/
def get_expiry (key : String) (now : Int) (s : MongoState) :
    Int × MongoState :=
  (match s.counters key with
   | some c => c.expireAt
   | none => now, s)

/-- Embeds `MongoDBStorage.get`: `find_one` of the counter for `key`
with the filter `expireAt >= utcnow()`; the stored count when an
unexpired document exists, `0` otherwise.  Read-only, state unchanged. -/
def get (key : String) (now : Int) (s : MongoState) : Nat × MongoState :=
  (match s.counters key with
   | some c => if now ≤ c.expireAt then c.count else 0
   | none => 0, s)

/-- Embeds `MongoDBStorage.incr`: `find_one_and_update` on `key` with an
aggregation pipeline and `upsert=True`, returning the document after the
update.  The pipeline tests `expireAt < $$NOW` (which also holds for the
freshly upserted document, whose `expireAt` field is missing and sorts
below every date): when it holds the counter is reset to `1` with
`expireAt = now + expiry`; otherwise `count` is incremented and
`expireAt` is replaced by `now + expiry` exactly when `elastic_expiry`
is set, and kept otherwise. -/
def incr (key : String) (expiry : Int) (elastic_expiry : Bool) (now : Int)
    (s : MongoState) : Nat × MongoState :=
  match s.counters key with
  | none =>
      (1, s.setCounter key { count := 1, expireAt := now + expiry })
  | some c =>
      if c.expireAt < now then
        (1, s.setCounter key { count := 1, expireAt := now + expiry })
      else
        (c.count + 1,
         s.setCounter key
           { count := c.count + 1,
             expireAt := if elastic_expiry then now + expiry else c.expireAt })

/-- The array-fullness condition in `acquire_entry`'s update filter:
the document field `entries.(limit - 1)` exists and fails
`$not: $gte: timestamp - expiry`, i.e. the element at index
`limit - 1` exists and is at least `threshold = timestamp - expiry`.
When the index is out of range the path has no value, `$gte` does not
match, and `$not` matches (not blocked). -/
def entryBlocked (entries : List Int) (limit : Nat) (threshold : Int) :
    Bool :=
  match entries[limit - 1]? with
  | some e => decide (threshold ≤ e)
  | none => false

/-- Embeds `MongoDBStorage.acquire_entry`: `update_one` with
`upsert=True` on the filter `_id = key` and not-blocked (see
`entryBlocked`), with update operators `$push` `entries` at position 0
sliced to the first `limit` elements and `$set expireAt = now + expiry`.
When no document with `_id = key` exists the upsert inserts
`entries = [now]` (sliced) with that `expireAt`; when the document
exists but is blocked the upsert's insert collides on `_id`, raising
`DuplicateKeyError`, caught and returned as `false` with the state
untouched. -/
def acquire_entry (key : String) (limit : Nat) (expiry : Int) (now : Int)
    (s : MongoState) : Bool × MongoState :=
  match s.windows key with
  | none =>
      (true,
       s.setWindow key
         { entries := (now :: []).take limit, expireAt := now + expiry })
  | some w =>
      if entryBlocked w.entries limit (now - expiry) then
        (false, s)
      else
        (true,
         s.setWindow key
           { entries := (now :: w.entries).take limit,
             expireAt := now + expiry })

/-- Embeds `MongoDBStorage.get_moving_window`'s aggregation: match the
document for `key`, keep the entries with `entry >= timestamp - expiry`,
unwind and group computing `$max` and the count.  With at least one
entry in the window it returns `(max, count)`; with no document or no
entry in the window the aggregation yields no group and the method
returns `(timestamp, 0)`.  The aggregation is read-only, so the state is
returned unchanged.  `limit` is accepted but unused, as in the source. -/
def get_moving_window (key : String) (_limit : Nat) (expiry : Int)
    (now : Int) (s : MongoState) : (Int × Nat) × MongoState :=
  (match s.windows key with
   | none => (now, 0)
   | some w =>
       match w.entries.filter (inWindow now expiry) with
       | [] => (now, 0)
       | e :: rest => (rest.foldl max e, (e :: rest).length), s)

end MongoDBStorage

/-- The entries of the window document stored under `key`, `[]` when no
document exists. -/
def entriesOf (s : MongoState) (key : String) : List Int :=
  match s.windows key with
  | some w => w.entries
  | none => []

/-- A rate limit item: `amount` hits per window of `expiry` seconds,
with `key` standing for `item.key_for(*identifiers)`. -/
structure RateLimitItem where
  amount : Nat
  expiry : Int
  key : String

/-- Capability shape of a storage object as seen by
`MovingWindowRateLimiter.__init__`'s two `hasattr` probes. -/
structure StorageAttrs where
  hasAcquireEntry : Bool
  hasGetMovingWindow : Bool
  deriving DecidableEq, Repr

namespace RateLimiter

/-- Embeds `RateLimiter.clear`: delegates to the backend's
`clear(item.key_for(*identifiers))`. -/
def clear (item : RateLimitItem) (s : MongoState) : MongoState :=
  MongoDBStorage.clear item.key s

end RateLimiter

namespace MovingWindowRateLimiter

/-- Embeds the capability check in `MovingWindowRateLimiter.__init__`:
`NotImplementedError` is raised exactly when
`not (hasattr(storage, "acquire_entry") or
hasattr(storage, "get_moving_window"))`. -/
def initRaises (st : StorageAttrs) : Bool :=
  !(st.hasAcquireEntry || st.hasGetMovingWindow)

/-- Embeds `MovingWindowRateLimiter.hit`: delegates to the backend's
`acquire_entry(key, amount, expiry)`. -/
def hit (item : RateLimitItem) (now : Int) (s : MongoState) :
    Bool × MongoState :=
  MongoDBStorage.acquire_entry item.key item.amount item.expiry now s

/-- Embeds `MovingWindowRateLimiter.test`: reads the moving window and
allows when the acquired count is strictly below the amount. -/
def test (item : RateLimitItem) (now : Int) (s : MongoState) :
    Bool × MongoState :=
  let r := MongoDBStorage.get_moving_window item.key item.amount
    item.expiry now s
  (decide (r.1.2 < item.amount), r.2)

/-- Embeds `MovingWindowRateLimiter.get_window_stats`: returns
`(window_start + expiry, amount - window_items)`. -/
def get_window_stats (item : RateLimitItem) (now : Int) (s : MongoState) :
    (Int × Int) × MongoState :=
  let r := MongoDBStorage.get_moving_window item.key item.amount
    item.expiry now s
  ((r.1.1 + item.expiry, (item.amount : Int) - (r.1.2 : Int)), r.2)

end MovingWindowRateLimiter

namespace FixedWindowRateLimiter

/-- Embeds `FixedWindowRateLimiter.hit`: increments the counter with
`elastic_expiry` left at its default `False` and admits exactly when the
resulting count is at most the amount. -/
def hit (item : RateLimitItem) (now : Int) (s : MongoState) :
    Bool × MongoState :=
  let r := MongoDBStorage.incr item.key item.expiry false now s
  (decide (r.1 ≤ item.amount), r.2)

/-- Embeds `FixedWindowRateLimiter.test`: reads the counter and allows
when it is strictly below the amount. -/
def test (item : RateLimitItem) (now : Int) (s : MongoState) :
    Bool × MongoState :=
  let r := MongoDBStorage.get item.key now s
  (decide (r.1 < item.amount), r.2)

/-- Embeds `FixedWindowRateLimiter.get_window_stats`: remaining is
`max(0, amount - get(key))` and reset is `get_expiry(key)`, queried in
that order. -/
def get_window_stats (item : RateLimitItem) (now : Int) (s : MongoState) :
    (Int × Nat) × MongoState :=
  let g := MongoDBStorage.get item.key now s
  let e := MongoDBStorage.get_expiry item.key now g.2
  ((e.1, max 0 (item.amount - g.1)), e.2)

end FixedWindowRateLimiter

namespace FixedWindowElasticExpiryRateLimiter

/-- Embeds `FixedWindowElasticExpiryRateLimiter.hit`: same as the fixed
window hit but with `elastic_expiry=True` passed to `incr`. -/
def hit (item : RateLimitItem) (now : Int) (s : MongoState) :
    Bool × MongoState :=
  let r := MongoDBStorage.incr item.key item.expiry true now s
  (decide (r.1 ≤ item.amount), r.2)

end FixedWindowElasticExpiryRateLimiter

/-- Iterate `FixedWindowRateLimiter.hit` on the state `n` times, at a
fixed instant `now` (no time passes between calls). -/
def hitIter (item : RateLimitItem) (now : Int) :
    Nat → MongoState → MongoState
  | 0, s => s
  | n + 1, s => (FixedWindowRateLimiter.hit item now (hitIter item now n s)).2

/-- Sample rate limit item used to instantiate universally quantified
theorems: 2 hits per 5-second window, under key "k". -/
def itemW : RateLimitItem :=
  { amount := 2, expiry := 5, key := "k" }

/-- Sample state with one window document under "k" holding the entry
timestamps `[5, 3]` (newest first). -/
def stWin : MongoState :=
  MongoState.empty.setWindow "k" { entries := [5, 3], expireAt := 1000 }

/-- Sample state with one unexpired counter document under "k". -/
def stCtr : MongoState :=
  MongoState.empty.setCounter "k" { count := 3, expireAt := 50 }

/-- Sample state with one counter document under "k" whose `expireAt`
has already passed at instant 40. -/
def stExpired : MongoState :=
  MongoState.empty.setCounter "k" { count := 3, expireAt := 30 }

/-!
Helper lemmas about `List.foldl max`, window filters and the embedded
operations, shared by the claim theorems below.
-/

theorem foldl_max_mem (l : List Int) (a : Int) : l.foldl max a ∈ a :: l := by
  induction l generalizing a with
  | nil => simp
  | cons b t ih =>
      rw [List.foldl_cons]
      have h := ih (max a b)
      simp only [List.mem_cons] at h ⊢
      rcases h with h1 | h1
      · rcases max_choice a b with hm | hm
        · exact Or.inl (h1.trans hm)
        · exact Or.inr (Or.inl (h1.trans hm))
      · exact Or.inr (Or.inr h1)

theorem le_foldl_max (l : List Int) (a : Int) :
    ∀ b ∈ a :: l, b ≤ l.foldl max a := by
  induction l generalizing a with
  | nil => intro b hb; simp at hb; simp [hb, List.foldl]
  | cons c t ih =>
      intro b hb
      rw [List.foldl_cons]
      rcases List.mem_cons.mp hb with h1 | h1
      · calc b = a := h1
          _ ≤ max a c := le_max_left a c
          _ ≤ t.foldl max (max a c) := ih (max a c) _ (List.mem_cons_self _ _)
      · rcases List.mem_cons.mp h1 with h2 | h2
        · calc b = c := h2
            _ ≤ max a c := le_max_right a c
            _ ≤ t.foldl max (max a c) := ih (max a c) _ (List.mem_cons_self _ _)
        · exact ih (max a c) b (List.mem_cons_of_mem _ h2)

theorem filter_ge_length_iff (c : Int) :
    ∀ (l : List Int) (n : Nat), l.Pairwise (fun a b => b ≤ a) →
      (n + 1 ≤ (l.filter (fun e => decide (c ≤ e))).length ↔
        ∃ e, l[n]? = some e ∧ c ≤ e) := by
  intro l
  induction l with
  | nil => intro n _; simp
  | cons a t ih =>
      intro n hp
      obtain ⟨ha, ht⟩ := List.pairwise_cons.mp hp
      by_cases hca : c ≤ a
      · rw [List.filter_cons, if_pos (by simpa using hca)]
        cases n with
        | zero =>
            simp only [List.getElem?_cons_zero]
            constructor
            · intro _; exact ⟨a, rfl, hca⟩
            · intro _
              exact Nat.succ_le_succ (Nat.zero_le _)
        | succ m =>
            simp only [List.getElem?_cons_succ, List.length_cons]
            rw [Nat.succ_le_succ_iff]
            exact ih m ht
      · have hnone : ∀ e ∈ a :: t, ¬ c ≤ e := by
          intro e he
          rcases List.mem_cons.mp he with h1 | h1
          · exact h1 ▸ hca
          · exact fun hce => hca (le_trans hce (ha e h1))
        have hfil : (a :: t).filter (fun e => decide (c ≤ e)) = [] := by
          rw [List.filter_eq_nil_iff]
          intro e he
          simpa using hnone e he
        rw [hfil]
        constructor
        · intro h; simp at h
        · rintro ⟨e, hget, hce⟩
          have hmem : e ∈ a :: t :=
            List.get?_mem ((List.get?_eq_getElem? _ _).trans hget)
          exact absurd hce (hnone e hmem)

theorem entryBlocked_true_iff (entries : List Int) (limit : Nat) (c : Int) :
    MongoDBStorage.entryBlocked entries limit c = true ↔
      ∃ e, entries[limit - 1]? = some e ∧ c ≤ e := by
  unfold MongoDBStorage.entryBlocked
  cases hg : entries[limit - 1]? with
  | none => simp
  | some e => simp

theorem entryBlocked_ge_iff (entries : List Int) (limit : Nat)
    (now expiry : Int) (hl : 0 < limit)
    (hsort : entries.Pairwise (fun a b => b ≤ a)) :
    MongoDBStorage.entryBlocked entries limit (now - expiry) = true ↔
      limit ≤ (entries.filter (inWindow now expiry)).length := by
  have hfe : entries.filter (inWindow now expiry) =
      entries.filter (fun e => decide (now - expiry ≤ e)) := rfl
  have hn : limit - 1 + 1 = limit := Nat.succ_pred_eq_of_pos hl
  rw [hfe, entryBlocked_true_iff, ← hn,
    filter_ge_length_iff (now - expiry) entries (limit - 1) hsort]
  simp [Nat.add_sub_cancel]

theorem acquire_entry_true_iff (key : String) (limit : Nat)
    (expiry now : Int) (s : MongoState) (hl : 0 < limit)
    (hsort : (entriesOf s key).Pairwise (fun a b => b ≤ a)) :
    (MongoDBStorage.acquire_entry key limit expiry now s).1 = true ↔
      ((entriesOf s key).filter (inWindow now expiry)).length < limit := by
  cases hw : s.windows key with
  | none =>
      simp [MongoDBStorage.acquire_entry, hw, entriesOf, hl]
  | some w =>
      have he : entriesOf s key = w.entries := by simp [entriesOf, hw]
      rw [he] at hsort ⊢
      have hiff := entryBlocked_ge_iff w.entries limit now expiry hl hsort
      cases hb : MongoDBStorage.entryBlocked w.entries limit (now - expiry) with
      | false =>
          simp only [MongoDBStorage.acquire_entry, hw, hb, Bool.false_eq_true,
            if_false]
          simp only [hb, Bool.false_eq_true, false_iff, not_le] at hiff
          simpa using hiff
      | true =>
          simp only [MongoDBStorage.acquire_entry, hw, hb, if_true]
          simp only [hb, true_iff] at hiff
          simp [Nat.not_lt.mpr hiff]

theorem hitIter_counters (item : RateLimitItem) (now : Int) (s : MongoState)
    (h0 : s.counters item.key = none) (he : 0 ≤ item.expiry) :
    ∀ n, (hitIter item now (n + 1) s).counters item.key =
      some { count := n + 1, expireAt := now + item.expiry } := by
  intro n
  induction n with
  | zero =>
      simp [hitIter, FixedWindowRateLimiter.hit, MongoDBStorage.incr, h0,
        MongoState.setCounter]
  | succ m ih =>
      have hnotlt : ¬ (now + item.expiry < now) := by omega
      show (FixedWindowRateLimiter.hit item now
        (hitIter item now (m + 1) s)).2.counters item.key = _
      simp [FixedWindowRateLimiter.hit, MongoDBStorage.incr, ih,
        MongoState.setCounter, hnotlt]

theorem hit_result_at (item : RateLimitItem) (now : Int) (s : MongoState)
    (h0 : s.counters item.key = none) (he : 0 ≤ item.expiry) :
    ∀ k, (FixedWindowRateLimiter.hit item now (hitIter item now k s)).1 =
      decide (k + 1 ≤ item.amount) := by
  intro k
  cases k with
  | zero =>
      simp [hitIter, FixedWindowRateLimiter.hit, MongoDBStorage.incr, h0]
  | succ m =>
      have hc := hitIter_counters item now s h0 he m
      have hnotlt : ¬ (now + item.expiry < now) := by omega
      simp [FixedWindowRateLimiter.hit, MongoDBStorage.incr, hc, hnotlt]

/-- C3: `MongoDBStorage.incr` produces and returns the new count: when
no counter document exists, or the stored `expireAt` is before `now`,
the document is reset to count 1 with `expireAt = now + expiry`; when an
unexpired document exists the count is incremented by one, and
`expireAt` is replaced by `now + expiry` exactly when `elastic_expiry`
is set, and left untouched otherwise. -/
theorem C3_incr_resets_or_increments (key : String) (expiry : Int)
    (elastic : Bool) (now : Int) (s : MongoState) :
    ((s.counters key = none ∨
        ∃ c, s.counters key = some c ∧ c.expireAt < now) →
      (MongoDBStorage.incr key expiry elastic now s).1 = 1 ∧
      (MongoDBStorage.incr key expiry elastic now s).2.counters key =
        some { count := 1, expireAt := now + expiry }) ∧
    (∀ c, s.counters key = some c → now ≤ c.expireAt →
      (MongoDBStorage.incr key expiry elastic now s).1 = c.count + 1 ∧
      (MongoDBStorage.incr key expiry elastic now s).2.counters key =
        some { count := c.count + 1,
               expireAt := if elastic then now + expiry else c.expireAt }) := by
  constructor
  · rintro (hnone | ⟨c, hc, hlt⟩)
    · simp [MongoDBStorage.incr, hnone, MongoState.setCounter]
    · simp [MongoDBStorage.incr, hc, hlt, MongoState.setCounter]
  · intro c hc hle
    have hn : ¬ (c.expireAt < now) := not_lt.mpr hle
    simp [MongoDBStorage.incr, hc, hn, MongoState.setCounter]

/-- Witness for C3 at a concrete unexpired counter. -/
theorem C3_witness :
    (40 : Int) ≤ 50 ∧ (MongoDBStorage.incr "k" 7 true 40 stCtr).1 = 3 + 1 :=
  ⟨by decide,
   ((C3_incr_resets_or_increments "k" 7 true 40 stCtr).2
     { count := 3, expireAt := 50 } rfl (by decide)).1⟩

/-- C2: the capability check in `MovingWindowRateLimiter.__init__` uses
`hasattr(...) or hasattr(...)`, so a storage exposing only one of
`acquire_entry` / `get_moving_window` is accepted (no error raised);
only a storage exposing neither is rejected.  This contradicts the
specified behaviour, which requires rejecting a storage that lacks
either method. -/
theorem C2_init_accepts_partial_storage :
    MovingWindowRateLimiter.initRaises
      { hasAcquireEntry := true, hasGetMovingWindow := false } = false ∧
    MovingWindowRateLimiter.initRaises
      { hasAcquireEntry := false, hasGetMovingWindow := true } = false ∧
    MovingWindowRateLimiter.initRaises
      { hasAcquireEntry := false, hasGetMovingWindow := false } = true := by
  decide

/-- C10: a counter document whose `expireAt` has passed but which has
not yet been evicted is treated as absent by `get` (which returns 0),
while `get_expiry` still returns the stored, now-past `expireAt`;
consequently `FixedWindowRateLimiter.get_window_stats` reports a reset
timestamp lying in the past together with the full amount remaining. -/
theorem C10_expired_record_stats (item : RateLimitItem) (now : Int)
    (s : MongoState) (c : CounterDoc) (hc : s.counters item.key = some c)
    (hexp : c.expireAt < now) :
    (MongoDBStorage.get item.key now s).1 = 0 ∧
    (MongoDBStorage.get_expiry item.key now s).1 = c.expireAt ∧
    (FixedWindowRateLimiter.get_window_stats item now s).1 =
      (c.expireAt, item.amount) ∧
    (FixedWindowRateLimiter.get_window_stats item now s).1.1 < now := by
  have hnle : ¬ (now ≤ c.expireAt) := not_le.mpr hexp
  refine ⟨?_, ?_, ?_, ?_⟩ <;>
    simp [MongoDBStorage.get, MongoDBStorage.get_expiry,
      FixedWindowRateLimiter.get_window_stats, hc, hnle, hexp]

/-- C7: `test` and `get_window_stats`, in both the fixed-window and the
moving-window variant, leave the stored state unchanged (they are built
from the read-only `get`, `get_expiry` and `get_moving_window`), so two
consecutive calls to `test` return the same boolean, and
`get_window_stats` observes the same statistics before and after a
`test`, at a fixed instant with no intervening `hit`. -/
theorem C7_test_and_stats_read_only (item : RateLimitItem) (now : Int)
    (s : MongoState) :
    (FixedWindowRateLimiter.test item now s).2 = s ∧
    (MovingWindowRateLimiter.test item now s).2 = s ∧
    (FixedWindowRateLimiter.get_window_stats item now s).2 = s ∧
    (MovingWindowRateLimiter.get_window_stats item now s).2 = s ∧
    (FixedWindowRateLimiter.test item now
        (FixedWindowRateLimiter.test item now s).2).1 =
      (FixedWindowRateLimiter.test item now s).1 ∧
    (MovingWindowRateLimiter.test item now
        (MovingWindowRateLimiter.test item now s).2).1 =
      (MovingWindowRateLimiter.test item now s).1 ∧
    (FixedWindowRateLimiter.get_window_stats item now
        (FixedWindowRateLimiter.test item now s).2).1 =
      (FixedWindowRateLimiter.get_window_stats item now s).1 ∧
    (MovingWindowRateLimiter.get_window_stats item now
        (MovingWindowRateLimiter.test item now s).2).1 =
      (MovingWindowRateLimiter.get_window_stats item now s).1 :=
  ⟨rfl, rfl, rfl, rfl, rfl, rfl, rfl, rfl⟩

/-- C8: `clear` is idempotent, clearing an absent key is a no-op, and
immediately after `clear` both variants of `get_window_stats` report
the full amount remaining. -/
theorem C8_clear_idempotent (item : RateLimitItem) (now : Int)
    (s : MongoState) :
    RateLimiter.clear item (RateLimiter.clear item s) =
      RateLimiter.clear item s ∧
    (s.counters item.key = none ∧ s.windows item.key = none →
      RateLimiter.clear item s = s) ∧
    (FixedWindowRateLimiter.get_window_stats item now
        (RateLimiter.clear item s)).1.2 = item.amount ∧
    (MovingWindowRateLimiter.get_window_stats item now
        (RateLimiter.clear item s)).1.2 = (item.amount : Int) := by
  refine ⟨?_, ?_, ?_, ?_⟩
  · ext k
    · by_cases hk : k = item.key <;>
        simp [RateLimiter.clear, MongoDBStorage.clear, hk]
    · by_cases hk : k = item.key <;>
        simp [RateLimiter.clear, MongoDBStorage.clear, hk]
  · rintro ⟨hc, hw⟩
    ext k
    · by_cases hk : k = item.key <;>
        simp [RateLimiter.clear, MongoDBStorage.clear, hk]
      simp [hc]
    · by_cases hk : k = item.key <;>
        simp [RateLimiter.clear, MongoDBStorage.clear, hk]
      simp [hw]
  · simp [RateLimiter.clear, MongoDBStorage.clear,
      FixedWindowRateLimiter.get_window_stats, MongoDBStorage.get,
      MongoDBStorage.get_expiry]
  · simp [RateLimiter.clear, MongoDBStorage.clear,
      MovingWindowRateLimiter.get_window_stats,
      MongoDBStorage.get_moving_window]

/-- Witness for C8: clearing the empty state (where the key is absent)
is a no-op. -/
theorem C8_witness :
    (MongoState.empty.counters itemW.key = none ∧
      MongoState.empty.windows itemW.key = none) ∧
    RateLimiter.clear itemW MongoState.empty = MongoState.empty :=
  ⟨⟨rfl, rfl⟩,
   (C8_clear_idempotent itemW 0 MongoState.empty).2.1 ⟨rfl, rfl⟩⟩

/-- Counterexample to C1 as stated: at instant 10 with expiry 100, the
window document for "k" holds the entries `[5, 3]`, both inside the
trailing window; the oldest in-window entry is 3, yet
`get_moving_window` returns 5 (the newest) as the window start. -/
theorem C1_counterexample :
    (MongoDBStorage.get_moving_window "k" 3 100 10 stWin).1.1 = 5 ∧
    (3 : Int) ∈ (entriesOf stWin "k").filter (inWindow 10 100) ∧
    (∀ e ∈ (entriesOf stWin "k").filter (inWindow 10 100), (3 : Int) ≤ e) ∧
    (5 : Int) ≠ 3 := by
  decide

/-- C1 (amended): `get_moving_window` returns, without mutating stored
state, the pair `(window_start, count)` where `count` is the number of
stored entries with timestamp at least `now - expiry` and
`window_start` is the timestamp of the NEWEST such entry (the maximum);
if no entry lies in the trailing window it returns `(now, 0)`. -/
theorem C1_moving_window_newest (key : String) (limit : Nat)
    (expiry now : Int) (s : MongoState) :
    (MongoDBStorage.get_moving_window key limit expiry now s).2 = s ∧
    ((entriesOf s key).filter (inWindow now expiry) = [] →
      (MongoDBStorage.get_moving_window key limit expiry now s).1 =
        (now, 0)) ∧
    ((entriesOf s key).filter (inWindow now expiry) ≠ [] →
      (MongoDBStorage.get_moving_window key limit expiry now s).1.2 =
        ((entriesOf s key).filter (inWindow now expiry)).length ∧
      (MongoDBStorage.get_moving_window key limit expiry now s).1.1 ∈
        (entriesOf s key).filter (inWindow now expiry) ∧
      ∀ e ∈ (entriesOf s key).filter (inWindow now expiry),
        e ≤ (MongoDBStorage.get_moving_window key limit expiry now s).1.1) := by
  refine ⟨rfl, ?_, ?_⟩
  · intro hnil
    cases hw : s.windows key with
    | none => simp [MongoDBStorage.get_moving_window, hw]
    | some w =>
        have he : entriesOf s key = w.entries := by simp [entriesOf, hw]
        rw [he] at hnil
        simp [MongoDBStorage.get_moving_window, hw, hnil]
  · intro hne
    cases hw : s.windows key with
    | none =>
        exfalso
        apply hne
        simp [entriesOf, hw]
    | some w =>
        have he : entriesOf s key = w.entries := by simp [entriesOf, hw]
        rw [he] at hne ⊢
        cases hf : w.entries.filter (inWindow now expiry) with
        | nil => exact absurd hf hne
        | cons e rest =>
            have h1 : (MongoDBStorage.get_moving_window key limit expiry
                now s).1 = (rest.foldl max e, (e :: rest).length) := by
              simp [MongoDBStorage.get_moving_window, hw, hf]
            rw [h1]
            exact ⟨rfl, foldl_max_mem rest e, le_foldl_max rest e⟩

/-- Witness for C1 (amended) at a concrete window document. -/
theorem C1_witness :
    (entriesOf stWin "k").filter (inWindow 10 100) ≠ [] ∧
    (MongoDBStorage.get_moving_window "k" 3 100 10 stWin).1.2 =
      ((entriesOf stWin "k").filter (inWindow 10 100)).length :=
  ⟨by decide,
   ((C1_moving_window_newest "k" 3 100 10 stWin).2.2 (by decide)).1⟩

/-- C5: starting from a state with no counter record for the key and
with no time passing between calls, the fixed window limiter admits
each of the first `amount` consecutive hits and rejects the
`(amount + 1)`-th; each hit is admitted exactly when the count returned
by `incr` with `elastic_expiry = false` is at most `amount`. -/
theorem C5_fixed_window_exact_amount (item : RateLimitItem) (now : Int)
    (s : MongoState) (h0 : s.counters item.key = none)
    (he : 0 < item.expiry) :
    (∀ k, k < item.amount →
      (FixedWindowRateLimiter.hit item now (hitIter item now k s)).1 =
        true) ∧
    (FixedWindowRateLimiter.hit item now
        (hitIter item now item.amount s)).1 = false ∧
    (∀ (t : Int) (s0 : MongoState),
      (FixedWindowRateLimiter.hit item t s0).1 =
        decide ((MongoDBStorage.incr item.key item.expiry false t s0).1 ≤
          item.amount)) := by
  have he' : (0 : Int) ≤ item.expiry := le_of_lt he
  refine ⟨?_, ?_, ?_⟩
  · intro k hk
    rw [hit_result_at item now s h0 he' k]
    exact decide_eq_true (by omega)
  · rw [hit_result_at item now s h0 he' item.amount]
    exact decide_eq_false (by omega)
  · intro t s0
    rfl

/-- Witness for C5: with amount 2, the third hit from the empty state
is rejected. -/
theorem C5_witness :
    MongoState.empty.counters itemW.key = none ∧
    (FixedWindowRateLimiter.hit itemW 100
        (hitIter itemW 100 itemW.amount MongoState.empty)).1 = false :=
  ⟨rfl,
   (C5_fixed_window_exact_amount itemW 100 MongoState.empty rfl
     (by decide)).2.1⟩

/-- C6: on an existing unexpired counter record, the elastic-expiry hit
always (whether admitted or rejected) stores `expireAt = now + expiry`,
so the reset timestamp reported by `get_window_stats` right after the
call is the call time plus the expiry — in particular, if the record's
expiry stems from a previous hit at `tprev`, the reported reset grows
by exactly `now - tprev`.  The hit differs from the plain fixed-window
hit only through the elastic flag: it returns the same boolean and
stores the same count, while the plain hit keeps the old `expireAt`. -/
theorem C6_elastic_hit_extends_expiry (item : RateLimitItem) (now : Int)
    (s : MongoState) (c : CounterDoc) (hc : s.counters item.key = some c)
    (hun : now ≤ c.expireAt) :
    (FixedWindowElasticExpiryRateLimiter.hit item now s).2.counters
        item.key =
      some { count := c.count + 1, expireAt := now + item.expiry } ∧
    (FixedWindowRateLimiter.get_window_stats item now
        (FixedWindowElasticExpiryRateLimiter.hit item now s).2).1.1 =
      now + item.expiry ∧
    (FixedWindowElasticExpiryRateLimiter.hit item now s).1 =
      (FixedWindowRateLimiter.hit item now s).1 ∧
    (FixedWindowRateLimiter.hit item now s).2.counters item.key =
      some { count := c.count + 1, expireAt := c.expireAt } ∧
    (∀ tprev : Int, c.expireAt = tprev + item.expiry →
      (FixedWindowRateLimiter.get_window_stats item now
          (FixedWindowElasticExpiryRateLimiter.hit item now s).2).1.1 =
        c.expireAt + (now - tprev)) := by
  have hn : ¬ (c.expireAt < now) := not_lt.mpr hun
  have h2 : (FixedWindowElasticExpiryRateLimiter.hit item now
      s).2.counters item.key =
      some { count := c.count + 1, expireAt := now + item.expiry } := by
    simp [FixedWindowElasticExpiryRateLimiter.hit, MongoDBStorage.incr, hc,
      hn, MongoState.setCounter]
  have hreset : (FixedWindowRateLimiter.get_window_stats item now
      (FixedWindowElasticExpiryRateLimiter.hit item now s).2).1.1 =
      now + item.expiry := by
    simp [FixedWindowRateLimiter.get_window_stats, MongoDBStorage.get,
      MongoDBStorage.get_expiry, h2]
  refine ⟨h2, hreset, ?_, ?_, ?_⟩
  · simp [FixedWindowElasticExpiryRateLimiter.hit,
      FixedWindowRateLimiter.hit, MongoDBStorage.incr, hc, hn]
  · simp [FixedWindowRateLimiter.hit, MongoDBStorage.incr, hc, hn,
      MongoState.setCounter]
  · intro tprev htp
    rw [hreset, htp]
    ring

/-- Witness for C6 at a concrete unexpired counter. -/
theorem C6_witness :
    (40 : Int) ≤ 50 ∧
    (FixedWindowRateLimiter.get_window_stats itemW 40
        (FixedWindowElasticExpiryRateLimiter.hit itemW 40 stCtr).2).1.1 =
      40 + itemW.expiry :=
  ⟨by decide,
   (C6_elastic_hit_extends_expiry itemW 40 stCtr
     { count := 3, expireAt := 50 } rfl (by decide)).2.1⟩

/-- C4: on a window document whose entries list is sorted newest-first,
`acquire_entry` admits (returns `true`) exactly when the number of
stored entries inside the trailing window is strictly below `limit`;
on admission it prepends an entry carrying the current timestamp, sets
`expireAt` to `now + expiry` and truncates the list to its first
`limit` elements (dropping the oldest beyond the cap); on rejection it
returns `false` and leaves the state exactly as it was. -/
theorem C4_acquire_entry_spec (key : String) (limit : Nat)
    (expiry now : Int) (s : MongoState) (hl : 0 < limit)
    (hsort : (entriesOf s key).Pairwise (fun a b => b ≤ a)) :
    ((MongoDBStorage.acquire_entry key limit expiry now s).1 = true ↔
      ((entriesOf s key).filter (inWindow now expiry)).length < limit) ∧
    ((MongoDBStorage.acquire_entry key limit expiry now s).1 = true →
      (MongoDBStorage.acquire_entry key limit expiry now s).2.windows key =
        some { entries := (now :: entriesOf s key).take limit,
               expireAt := now + expiry }) ∧
    ((MongoDBStorage.acquire_entry key limit expiry now s).1 = false →
      (MongoDBStorage.acquire_entry key limit expiry now s).2 = s) := by
  refine ⟨acquire_entry_true_iff key limit expiry now s hl hsort, ?_, ?_⟩
  · intro ht
    cases hw : s.windows key with
    | none =>
        simp [MongoDBStorage.acquire_entry, hw, MongoState.setWindow,
          entriesOf]
    | some w =>
        have he : entriesOf s key = w.entries := by simp [entriesOf, hw]
        rw [he]
        cases hb : MongoDBStorage.entryBlocked w.entries limit
            (now - expiry) with
        | true => simp [MongoDBStorage.acquire_entry, hw, hb] at ht
        | false =>
            simp [MongoDBStorage.acquire_entry, hw, hb,
              MongoState.setWindow]
  · intro hf
    cases hw : s.windows key with
    | none => simp [MongoDBStorage.acquire_entry, hw] at hf
    | some w =>
        cases hb : MongoDBStorage.entryBlocked w.entries limit
            (now - expiry) with
        | false => simp [MongoDBStorage.acquire_entry, hw, hb] at hf
        | true => simp [MongoDBStorage.acquire_entry, hw, hb]

/-- Witness for C4: with two sorted in-window entries and limit 3 the
acquisition succeeds. -/
theorem C4_witness :
    (0 < 3 ∧ ((entriesOf stWin "k").filter (inWindow 10 100)).length < 3) ∧
    (MongoDBStorage.acquire_entry "k" 3 100 10 stWin).1 = true :=
  ⟨⟨by decide, by decide⟩,
   (C4_acquire_entry_spec "k" 3 100 10 stWin (by decide)
     (by decide)).1.mpr (by decide)⟩

/-- C9: provided the stored entries are sorted newest-first, no longer
than `limit`, and no later than the current call time, `acquire_entry`
preserves exactly that shape; its fullness check consults only the
single element at index `limit - 1` (on a present document the result
is the negation of `entryBlocked`, and `entryBlocked` is insensitive to
anything but that element), and under the ordering invariant the check
coincides with "fewer than `limit` entries inside the trailing
window". -/
theorem C9_window_invariant (key : String) (limit : Nat)
    (expiry now : Int) (s : MongoState) (hl : 0 < limit)
    (hsort : (entriesOf s key).Pairwise (fun a b => b ≤ a))
    (hlen : (entriesOf s key).length ≤ limit)
    (hpast : ∀ e ∈ entriesOf s key, e ≤ now) :
    (∀ w2, (MongoDBStorage.acquire_entry key limit expiry
        now s).2.windows key = some w2 →
      w2.entries.Pairwise (fun a b => b ≤ a) ∧ w2.entries.length ≤ limit) ∧
    (∀ w, s.windows key = some w →
      (MongoDBStorage.acquire_entry key limit expiry now s).1 =
        !(MongoDBStorage.entryBlocked w.entries limit (now - expiry))) ∧
    (∀ l1 l2 : List Int, l1[limit - 1]? = l2[limit - 1]? →
      MongoDBStorage.entryBlocked l1 limit (now - expiry) =
        MongoDBStorage.entryBlocked l2 limit (now - expiry)) ∧
    ((MongoDBStorage.acquire_entry key limit expiry now s).1 = true ↔
      ((entriesOf s key).filter (inWindow now expiry)).length < limit) := by
  have hinv : ∀ old : List Int, old.Pairwise (fun a b => b ≤ a) →
      (∀ e ∈ old, e ≤ now) →
      ((now :: old).take limit).Pairwise (fun a b => b ≤ a) ∧
      ((now :: old).take limit).length ≤ limit := by
    intro old hs hp
    constructor
    · exact List.Pairwise.sublist (List.take_sublist _ _)
        (List.pairwise_cons.mpr ⟨hp, hs⟩)
    · rw [List.length_take]
      exact min_le_left _ _
  refine ⟨?_, ?_, ?_, acquire_entry_true_iff key limit expiry now s hl hsort⟩
  · intro w2 hw2
    cases hw : s.windows key with
    | none =>
        have hres : (MongoDBStorage.acquire_entry key limit expiry
            now s).2.windows key =
            some { entries := (now :: []).take limit,
                   expireAt := now + expiry } := by
          simp [MongoDBStorage.acquire_entry, hw, MongoState.setWindow]
        rw [hres] at hw2
        cases Option.some.inj hw2
        exact hinv [] List.Pairwise.nil (by intro e hme; simp at hme)
    | some w =>
        have he : entriesOf s key = w.entries := by simp [entriesOf, hw]
        cases hb : MongoDBStorage.entryBlocked w.entries limit
            (now - expiry) with
        | true =>
            have hres : (MongoDBStorage.acquire_entry key limit expiry
                now s).2 = s := by
              simp [MongoDBStorage.acquire_entry, hw, hb]
            rw [hres, hw] at hw2
            cases Option.some.inj hw2
            exact ⟨he ▸ hsort, he ▸ hlen⟩
        | false =>
            have hres : (MongoDBStorage.acquire_entry key limit expiry
                now s).2.windows key =
                some { entries := (now :: w.entries).take limit,
                       expireAt := now + expiry } := by
              simp [MongoDBStorage.acquire_entry, hw, hb,
                MongoState.setWindow]
            rw [hres] at hw2
            cases Option.some.inj hw2
            exact hinv w.entries (he ▸ hsort)
              (fun e hme => hpast e (by rw [he]; exact hme))
  · intro w hw
    cases hb : MongoDBStorage.entryBlocked w.entries limit
        (now - expiry) with
    | true => simp [MongoDBStorage.acquire_entry, hw, hb]
    | false => simp [MongoDBStorage.acquire_entry, hw, hb]
  · intro l1 l2 h12
    unfold MongoDBStorage.entryBlocked
    rw [h12]

/-- Witness for C9: on the sample window document the admission result
is the negation of the index-(limit-1) fullness check. -/
theorem C9_witness :
    stWin.windows "k" = some { entries := [5, 3], expireAt := 1000 } ∧
    (MongoDBStorage.acquire_entry "k" 3 100 10 stWin).1 =
      !(MongoDBStorage.entryBlocked [5, 3] 3 (10 - 100)) :=
  ⟨rfl,
   (C9_window_invariant "k" 3 100 10 stWin (by decide) (by decide)
     (by decide) (by decide)).2.1
     { entries := [5, 3], expireAt := 1000 } rfl⟩

/-- Witness for C10 at a concrete expired counter. -/
theorem C10_witness :
    stExpired.counters itemW.key = some { count := 3, expireAt := 30 } ∧
    (FixedWindowRateLimiter.get_window_stats itemW 40 stExpired).1 =
      (30, 2) :=
  ⟨rfl,
   (C10_expired_record_stats itemW 40 stExpired
     { count := 3, expireAt := 30 } rfl (by decide)).2.2.1⟩

end LimitsMongo
